import Mathlib

/-!
A shallow embedding of the threadpool repository
(`include/threadpool.h`, `src/threadpool.cpp`): the `Any` type-erased
container, the counting semaphore, the `Result`/`Task` pairing, and the
`ThreadPool` state machine (task queue, worker registry, counters), with
the properties of the specification proved or refuted against it.

Modelling conventions:
* machine integers are `Nat`/`Int`; the counters involved stay far below
  their C++ widths in every state considered, so no wrap-around is modelled
  except where a proof obligation would otherwise hide an underflow (those
  decrements are guarded by positivity facts proved from the invariants);
* the `std::unordered_map<int, std::unique_ptr<Thread>> threads_` registry
  is modelled by its key set (a `Finset Nat`), `std::queue` by a `List`
  (front = head, `emplace` appends at the tail);
* timed waits (`wait_for`) are modelled by their resolution: `submitTask`
  acts on the pool state observed when the wait returns, so "the queue
  stayed full for the whole admission window" is the case where the
  predicate `size < taskQueMaxThreshHold_` is false at resolution time;
  the cached-mode idle timeout is modelled as a nondeterministically
  enabled step (real time is not part of the model);
* blocking is modelled by partiality: an operation that would block
  returns `none` for "the caller is still waiting".
-/

/-- PoolMode from `threadpool.h`: fixed worker count, or dynamically
growing (cached) worker count. -/
inductive PoolMode where
  | MODE_FIXED
  | MODE_CACHED
deriving DecidableEq, Repr

/-- Tags for the C++ types a value stored in an `Any` can have in this
development; `dynamic_cast` against `Derive<T>` is modelled by comparing
tags. `tStr` stands for the C-string type of a literal such as `""`. -/
inductive Ty where
  | tInt
  | tStr
  | tBool
deriving DecidableEq, Repr

/-- The Lean type denoted by each tag. -/
@[reducible] def Ty.denote : Ty → Type
  | .tInt => Int
  | .tStr => String
  | .tBool => Bool

/-- The `Any` class of `threadpool.h`: `empty` is a default-constructed
`Any` (null `base_` pointer); `stored t v` is an `Any` whose `base_`
points at a `Derive<T>` holding `v` (built by the template constructor
`Any(T date)`). -/
inductive Any where
  | empty
  | stored (t : Ty) (v : t.denote)

/-- The member template `Any::cast<T>()`: `dynamic_cast` the stored
`Base*` to `Derive<T>*`; on a null result (wrong type, or empty `Any`)
`throw "type is unmatch!"`, modelled as `Except.error`; otherwise return
the stored `date_`. -/
def Any.cast (u : Ty) : Any → Except String u.denote
  | .empty => .error "type is unmatch!"
  | .stored t v => if h : t = u then .ok (h ▸ v) else .error "type is unmatch!"

/-- The `Semaphore` constructor `Semaphore(int limit = 0) : resLimit_(0)`:
the initial count it produces. Note the source initialises `resLimit_`
to the literal `0`, not to `limit`. -/
def semInit (limit : Int) : Int := 0

/-- The `Semaphore::wait()` body: block until `resLimit_ > 0`, then
decrement. `none` means the caller is still blocked. -/
def semWait (c : Int) : Option Int := if 0 < c then some (c - 1) else none

/-- The `Semaphore::post()` body: increment `resLimit_` (and notify). -/
def semPost (c : Int) : Int := c + 1

/-- The data members of the `Result` class: the delivered `Any`, its
semaphore's count, and the validity flag fixed at construction.
(The `shared_ptr<Task> task_` member is represented at the pool level,
where tasks are identifiers; see `ResultDesc`.) -/
structure ResultSt where
  any_ : Any
  sem_ : Int
  isValid_ : Bool

/-- The `Result::setVal(Any)` body: move the value into `any_` and post
the semaphore. -/
def ResultSt.setVal (r : ResultSt) (v : Any) : ResultSt :=
  { r with any_ := v, sem_ := semPost r.sem_ }

/-- The `Result::get()` body: when `isValid_` is false, `return "";`
immediately — note this constructs an `Any` from the C-string literal
`""` via the template constructor, so the returned container holds a
stored value. When valid, wait on the semaphore (`none` while blocked)
and then move `any_` out (leaving the moved-from container empty). -/
def ResultSt.get (r : ResultSt) : Option (Any × ResultSt) :=
  if r.isValid_ = false then some (Any.stored Ty.tStr "", r)
  else
    match semWait r.sem_ with
    | some c => some (r.any_, { r with any_ := Any.empty, sem_ := c })
    | none => none

/-- The data of the abstract `Task` class: the non-owning back-pointer
`Result* result_` (`none` models `nullptr`), and the `Any` that the
user-supplied virtual `run()` would produce when invoked. -/
structure TaskSt where
  result_ : Option ResultSt
  runRet : Any

/-- The `Task::exec()` body: `if (result_ != nullptr) result_->setVal(run());`.
The first component records whether `run()` was invoked at all; the second
is the bound `Result` after delivery, when one exists. When `result_` is
null the body does nothing — in particular `run()` is never called. -/
def TaskSt.exec (t : TaskSt) : Bool × Option ResultSt :=
  match t.result_ with
  | some r => (true, some (r.setVal t.runRet))
  | none => (false, none)

/-- The constant `TASK_MAX_THRESHHOLD = INT32_MAX` of `threadpool.cpp`. -/
def TASK_MAX_THRESHHOLD : Nat := 2147483647

/-- The constant `THREAD_MAX_THRESHHOLD = 100` of `threadpool.cpp`. -/
def THREAD_MAX_THRESHHOLD : Nat := 100

/-- The shared state of a `ThreadPool`, together with the process-wide
`Thread::generateId_` counter and some observability-only (ghost) fields
needed to state the scheduling claims: `busy` is the set of registered
workers currently between their dequeue and the `idleThreadSize_++` that
follows `task->exec()` (in the C++ this is worker-local control state,
not a data member); `exited` counts workers that left through the
shutdown paths (which erase from `threads_` without touching the
counters); `enqHist`/`deqHist` record the order of enqueues/dequeues.
The ghost fields alter no behaviour: every operation updates the real
fields exactly as the corresponding source lines do. -/
structure PoolState where
  threads_ : Finset Nat
  initThreadSize_ : Nat
  idleThreadSize_ : Nat
  curThreadSize_ : Nat
  threadSizeThreshHold_ : Nat
  taskQue_ : List Nat
  taskSize_ : Nat
  taskQueMaxThreshHold_ : Nat
  poolMode_ : PoolMode
  isPoolRunning_ : Bool
  generateId_ : Nat
  busy : Finset Nat
  exited : Nat
  enqHist : List Nat
  deqHist : List Nat
deriving DecidableEq

/-- The `ThreadPool` constructor: zero counters, queue bound
`TASK_MAX_THRESHHOLD`, fixed mode, not running, thread threshold
`THREAD_MAX_THRESHHOLD`. `gen` is the current value of the process-wide
`Thread::generateId_`. -/
def ThreadPool.init (gen : Nat) : PoolState :=
  ⟨∅, 0, 0, 0, THREAD_MAX_THRESHHOLD, [], 0, TASK_MAX_THRESHHOLD,
    PoolMode.MODE_FIXED, false, gen, ∅, 0, [], []⟩

/-- The `ThreadPool::setThreadSizeThreshHold(int)` body: a no-op once the
pool is running (`chackRunningState`), and a no-op unless the pool is in
cached mode. -/
def setThreadSizeThreshHold (s : PoolState) (threshhold : Nat) : PoolState :=
  if s.isPoolRunning_ then s
  else if s.poolMode_ = PoolMode.MODE_CACHED then
    { s with threadSizeThreshHold_ := threshhold }
  else s

/-- The `ThreadPool::setMode(PoolMode)` body: a no-op once running. -/
def setMode (s : PoolState) (mode : PoolMode) : PoolState :=
  if s.isPoolRunning_ then s else { s with poolMode_ := mode }

/-- The `Result` object `submitTask` returns, at pool level: which task
the `Result` constructor bound itself to (`task_->setResult(this)` runs
regardless of validity), and the `isValid_` flag it was given. -/
structure ResultDesc where
  task_ : Nat
  isValid_ : Bool
deriving DecidableEq, Repr

/-- The `ThreadPool::submitTask` body, acting on the state observed when
`notFull_.wait_for` resolves. If the predicate
`taskQue_.size() < taskQueMaxThreshHold_` is false then (timeout case)
nothing is modified and `Result(sp, false)` is returned. Otherwise the
task is pushed, `taskSize_` incremented, and — when
`taskSize_ > idleThreadSize_ && poolMode_ == MODE_CACHED &&
curThreadSize_ < threadSizeThreshHold_` — one new `Thread` is
constructed (taking id `generateId_`, which the `Thread` constructor
post-increments), registered in `threads_`, started (so it begins
waiting, not busy), and `curThreadSize_`/`idleThreadSize_` are
incremented. Finally `Result(sp)` (valid) is returned. -/
def submitTask (s : PoolState) (sp : Nat) : PoolState × ResultDesc :=
  if s.taskQue_.length < s.taskQueMaxThreshHold_ then
    let s1 : PoolState :=
      { s with taskQue_ := s.taskQue_ ++ [sp], taskSize_ := s.taskSize_ + 1,
               enqHist := s.enqHist ++ [sp] }
    let s2 : PoolState :=
      if s1.idleThreadSize_ < s1.taskSize_ ∧ s1.poolMode_ = PoolMode.MODE_CACHED
          ∧ s1.curThreadSize_ < s1.threadSizeThreshHold_ then
        { s1 with threads_ := insert s1.generateId_ s1.threads_,
                  generateId_ := s1.generateId_ + 1,
                  curThreadSize_ := s1.curThreadSize_ + 1,
                  idleThreadSize_ := s1.idleThreadSize_ + 1 }
      else s1
    (s2, ⟨sp, true⟩)
  else (s, ⟨sp, false⟩)

/-- The `ThreadPool::start(int)` body: set running, record
`initThreadSize_`, create `initThreadSize` threads (each taking the next
`generateId_`), register them and bump `curThreadSize_` per thread, then
start them all, bumping `idleThreadSize_` per thread. -/
def startPool (s : PoolState) (initThreadSize : Nat) : PoolState :=
  { s with isPoolRunning_ := true,
           initThreadSize_ := initThreadSize,
           threads_ := s.threads_ ∪ (Finset.range initThreadSize).image (fun i => s.generateId_ + i),
           generateId_ := s.generateId_ + initThreadSize,
           curThreadSize_ := s.curThreadSize_ + initThreadSize,
           idleThreadSize_ := s.idleThreadSize_ + initThreadSize }

/-- The dequeue section of `ThreadPool::threadFunc` (lines 178–191): on
leaving the empty-queue loop, worker `w` does `idleThreadSize_--`, takes
the queue's front task, pops it, does `taskSize_--`, and proceeds to
execute the task (so `w` becomes busy until `finishStep`). -/
def dequeueStep (s : PoolState) (w : Nat) : PoolState :=
  { s with idleThreadSize_ := s.idleThreadSize_ - 1,
           taskQue_ := s.taskQue_.tail,
           taskSize_ := s.taskSize_ - 1,
           busy := insert w s.busy,
           deqHist := s.deqHist ++ s.taskQue_.take 1 }

/-- The post-execution section of `ThreadPool::threadFunc` (line 200):
after `task->exec()` returns, worker `w` does `idleThreadSize_++` and
resets its `lastTime`. -/
def finishStep (s : PoolState) (w : Nat) : PoolState :=
  { s with idleThreadSize_ := s.idleThreadSize_ + 1,
           busy := s.busy.erase w }

/-- The cached-mode idle-timeout reap of `ThreadPool::threadFunc`
(lines 155–157): `threads_.erase(threadId)`, `curThreadSize_--`,
`idleThreadSize_--`, and the worker returns. -/
def reapStep (s : PoolState) (w : Nat) : PoolState :=
  { s with threads_ := s.threads_.erase w,
           curThreadSize_ := s.curThreadSize_ - 1,
           idleThreadSize_ := s.idleThreadSize_ - 1 }

/-- The shutdown exits of `ThreadPool::threadFunc` (lines 173 and 204):
`threads_.erase(threadId)` and return — note neither counter is
decremented on these paths. `exited` is the ghost count of such exits. -/
def shutdownExitStep (s : PoolState) (w : Nat) : PoolState :=
  { s with threads_ := s.threads_.erase w,
           exited := s.exited + 1 }

/-- The `ThreadPool` destructor's first action: `isPoolRunning_ = false`
(it then notifies and waits until `threads_` is empty). -/
def stopPool (s : PoolState) : PoolState :=
  { s with isPoolRunning_ := false }

/-- The atomic transitions of the pool, with the guards under which the
source code performs each one. Configuration happens before `start` (spec
§3: constructed, configured, then started) and is folded into the
initial state. `start` fires on a fresh pool; a worker step requires the
acting worker to be registered and in the matching local state; `reap`
additionally requires cached mode, a running pool, and
`curThreadSize_ > initThreadSize_` (the 60-second idle-time condition is
abstracted as nondeterministic enabling); the shutdown exits require the
running flag to be down. -/
inductive Step : PoolState → PoolState → Prop where
  | start (s : PoolState) (n : Nat) :
      s.isPoolRunning_ = false → s.curThreadSize_ = 0 → s.threads_ = ∅ →
      Step s (startPool s n)
  | submit (s : PoolState) (sp : Nat) :
      Step s (submitTask s sp).1
  | dequeue (s : PoolState) (w : Nat) :
      w ∈ s.threads_ → w ∉ s.busy → s.taskQue_ ≠ [] →
      Step s (dequeueStep s w)
  | finish (s : PoolState) (w : Nat) :
      w ∈ s.busy →
      Step s (finishStep s w)
  | reap (s : PoolState) (w : Nat) :
      s.poolMode_ = PoolMode.MODE_CACHED → s.isPoolRunning_ = true →
      w ∈ s.threads_ → w ∉ s.busy → s.initThreadSize_ < s.curThreadSize_ →
      Step s (reapStep s w)
  | exitShutdown (s : PoolState) (w : Nat) :
      s.isPoolRunning_ = false → w ∈ s.threads_ → w ∉ s.busy →
      Step s (shutdownExitStep s w)
  | stop (s : PoolState) :
      Step s (stopPool s)

/-- States reachable from `s₀` by `Step`s. -/
inductive Reachable (s₀ : PoolState) : PoolState → Prop where
  | refl : Reachable s₀ s₀
  | step {s s' : PoolState} : Reachable s₀ s → Step s s' → Reachable s₀ s'

/-- A freshly constructed-and-configured pool: the constructor's zero
state with mode and thresholds arbitrary (set by the pre-start
setters), nothing queued, no workers, not yet running. -/
def ConfiguredInit (s : PoolState) : Prop :=
  s.taskQue_ = [] ∧ s.taskSize_ = 0 ∧ s.threads_ = ∅ ∧ s.busy = ∅ ∧
  s.curThreadSize_ = 0 ∧ s.idleThreadSize_ = 0 ∧ s.isPoolRunning_ = false ∧
  s.exited = 0 ∧ s.enqHist = [] ∧ s.deqHist = []

/-- The inductive invariant of the pool state machine: the counter/queue
and counter/registry agreement the spec asserts, plus the bookkeeping
facts (`busy` within the registry, ids below the generator, the dequeue
history being the enqueue history minus the queue, and the worker-count
bound) needed to push it through every step. -/
structure PoolInv (s : PoolState) : Prop where
  sizeEq : s.taskSize_ = s.taskQue_.length
  qBound : s.taskQue_.length ≤ s.taskQueMaxThreshHold_
  regCur : s.threads_.card + s.exited = s.curThreadSize_
  idleBusy : s.idleThreadSize_ + s.busy.card = s.curThreadSize_
  busySub : s.busy ⊆ s.threads_
  idBound : ∀ w ∈ s.threads_, w < s.generateId_
  fifo : s.deqHist ++ s.taskQue_ = s.enqHist
  curBound : s.curThreadSize_ ≤ max s.initThreadSize_ s.threadSizeThreshHold_

lemma PoolInv.busy_card_lt {s : PoolState} (hI : PoolInv s) {w : Nat}
    (hw : w ∈ s.threads_) (hb : w ∉ s.busy) : s.busy.card < s.threads_.card :=
  Finset.card_lt_card ((Finset.ssubset_iff_of_subset hI.busySub).mpr ⟨w, hw, hb⟩)

lemma PoolInv.idle_pos {s : PoolState} (hI : PoolInv s) {w : Nat}
    (hw : w ∈ s.threads_) (hb : w ∉ s.busy) : 0 < s.idleThreadSize_ := by
  have h1 := hI.busy_card_lt hw hb
  have h2 := hI.regCur
  have h3 := hI.idleBusy
  omega

lemma inv_start {s : PoolState} (n : Nat) (hI : PoolInv s)
    (hcur : s.curThreadSize_ = 0) (hth : s.threads_ = ∅) :
    PoolInv (startPool s n) := by
  have hex : s.exited = 0 := by have := hI.regCur; rw [hth] at this; simp at this; omega
  have hbc : s.busy.card = 0 := by have := hI.idleBusy; omega
  have hbe : s.busy = ∅ := Finset.card_eq_zero.mp hbc
  have hcard : ((Finset.range n).image (fun i => s.generateId_ + i)).card = n := by
    rw [Finset.card_image_of_injective _ (add_right_injective s.generateId_)]
    exact Finset.card_range n
  refine ⟨hI.sizeEq, hI.qBound, ?_, ?_, ?_, ?_, hI.fifo, ?_⟩
  · simp only [startPool, hth, Finset.empty_union, hcard]
    omega
  · simp only [startPool]
    have := hI.idleBusy
    omega
  · simp only [startPool, hth, Finset.empty_union, hbe]
    exact Finset.empty_subset _
  · intro w hw
    simp only [startPool, hth, Finset.empty_union, Finset.mem_image,
      Finset.mem_range] at hw ⊢
    obtain ⟨i, hi, rfl⟩ := hw
    omega
  · simp only [startPool]
    omega

lemma inv_submit {s : PoolState} (sp : Nat) (hI : PoolInv s) :
    PoolInv (submitTask s sp).1 := by
  by_cases hq : s.taskQue_.length < s.taskQueMaxThreshHold_
  · simp only [submitTask, if_pos hq]
    by_cases hc : s.idleThreadSize_ < s.taskSize_ + 1 ∧
        s.poolMode_ = PoolMode.MODE_CACHED ∧
        s.curThreadSize_ < s.threadSizeThreshHold_
    · simp only [if_pos hc]
      obtain ⟨hc1, hc2, hc3⟩ := hc
      have hg : s.generateId_ ∉ s.threads_ := fun h => absurd (hI.idBound _ h) (by omega)
      refine ⟨?_, ?_, ?_, ?_, ?_, ?_, ?_, ?_⟩
      · simp [hI.sizeEq]
      · simp; omega
      · simp [Finset.card_insert_of_not_mem hg]
        have := hI.regCur
        omega
      · simp
        have := hI.idleBusy
        omega
      · simp only
        exact hI.busySub.trans (Finset.subset_insert _ _)
      · intro w hw
        simp only [Finset.mem_insert] at hw
        dsimp only
        rcases hw with rfl | hw
        · omega
        · have := hI.idBound w hw; omega
      · simp [← List.append_assoc, hI.fifo]
      · simp
        have : s.curThreadSize_ + 1 ≤ s.threadSizeThreshHold_ := hc3
        omega
    · simp only [if_neg hc]
      refine ⟨?_, ?_, hI.regCur, hI.idleBusy, hI.busySub, hI.idBound, ?_, hI.curBound⟩
      · simp [hI.sizeEq]
      · simp; omega
      · simp [← List.append_assoc, hI.fifo]
  · simp only [submitTask, if_neg hq]
    exact hI

lemma inv_dequeue {s : PoolState} (w : Nat) (hI : PoolInv s)
    (hw : w ∈ s.threads_) (hb : w ∉ s.busy) (hq : s.taskQue_ ≠ []) :
    PoolInv (dequeueStep s w) := by
  have hlen : 0 < s.taskQue_.length := List.length_pos.mpr hq
  have hidle := hI.idle_pos hw hb
  refine ⟨?_, ?_, hI.regCur, ?_, ?_, hI.idBound, ?_, hI.curBound⟩
  · simp [dequeueStep, List.length_tail, hI.sizeEq]
  · simp only [dequeueStep, List.length_tail]
    have := hI.qBound
    omega
  · simp only [dequeueStep, Finset.card_insert_of_not_mem hb]
    have := hI.idleBusy
    omega
  · simp only [dequeueStep]
    exact Finset.insert_subset hw hI.busySub
  · simp only [dequeueStep]
    rw [List.append_assoc, ← List.drop_one, List.take_append_drop]
    exact hI.fifo

lemma inv_finish {s : PoolState} (w : Nat) (hI : PoolInv s) (hb : w ∈ s.busy) :
    PoolInv (finishStep s w) := by
  have hbc : 0 < s.busy.card := Finset.card_pos.mpr ⟨w, hb⟩
  refine ⟨hI.sizeEq, hI.qBound, hI.regCur, ?_, ?_, hI.idBound, hI.fifo, hI.curBound⟩
  · simp only [finishStep, Finset.card_erase_of_mem hb]
    have := hI.idleBusy
    omega
  · simp only [finishStep]
    exact (Finset.erase_subset _ _).trans hI.busySub

lemma inv_reap {s : PoolState} (w : Nat) (hI : PoolInv s)
    (hw : w ∈ s.threads_) (hb : w ∉ s.busy) :
    PoolInv (reapStep s w) := by
  have hidle := hI.idle_pos hw hb
  have htc : 0 < s.threads_.card := Finset.card_pos.mpr ⟨w, hw⟩
  refine ⟨hI.sizeEq, hI.qBound, ?_, ?_, ?_, ?_, hI.fifo, ?_⟩
  · simp only [reapStep, Finset.card_erase_of_mem hw]
    have := hI.regCur
    omega
  · simp only [reapStep]
    have := hI.idleBusy
    have := hI.regCur
    have := hI.busy_card_lt hw hb
    omega
  · simp only [reapStep]
    exact Finset.subset_erase.mpr ⟨hI.busySub, hb⟩
  · intro x hx
    exact hI.idBound x (Finset.erase_subset _ _ hx)
  · simp only [reapStep]
    have := hI.curBound
    omega

lemma inv_exitShutdown {s : PoolState} (w : Nat) (hI : PoolInv s)
    (hw : w ∈ s.threads_) (hb : w ∉ s.busy) :
    PoolInv (shutdownExitStep s w) := by
  have htc : 0 < s.threads_.card := Finset.card_pos.mpr ⟨w, hw⟩
  refine ⟨hI.sizeEq, hI.qBound, ?_, hI.idleBusy, ?_, ?_, hI.fifo, hI.curBound⟩
  · simp only [shutdownExitStep, Finset.card_erase_of_mem hw]
    have := hI.regCur
    omega
  · simp only [shutdownExitStep]
    exact Finset.subset_erase.mpr ⟨hI.busySub, hb⟩
  · intro x hx
    exact hI.idBound x (Finset.erase_subset _ _ hx)

lemma inv_stop {s : PoolState} (hI : PoolInv s) : PoolInv (stopPool s) :=
  ⟨hI.sizeEq, hI.qBound, hI.regCur, hI.idleBusy, hI.busySub, hI.idBound,
    hI.fifo, hI.curBound⟩

/-- Every `Step` preserves the inductive invariant. -/
lemma inv_step {s s' : PoolState} (hI : PoolInv s) (h : Step s s') : PoolInv s' := by
  cases h with
  | start n hrun hcur hth => exact inv_start n hI hcur hth
  | submit sp => exact inv_submit sp hI
  | dequeue w hw hb hq => exact inv_dequeue w hI hw hb hq
  | finish w hb => exact inv_finish w hI hb
  | reap w hm hrun hw hb hcur => exact inv_reap w hI hw hb
  | exitShutdown w hrun hw hb => exact inv_exitShutdown w hI hw hb
  | stop => exact inv_stop hI

/-- A configured initial state satisfies the invariant. -/
lemma inv_init {s : PoolState} (h : ConfiguredInit s) : PoolInv s := by
  obtain ⟨h1, h2, h3, h4, h5, h6, h7, h8, h9, h10⟩ := h
  refine ⟨?_, ?_, ?_, ?_, ?_, ?_, ?_, ?_⟩ <;>
    simp [h1, h2, h3, h4, h5, h6, h8, h9, h10]

/-- The invariant holds at every state reachable from a configured
initial state. -/
lemma inv_reachable {s₀ s : PoolState} (h₀ : ConfiguredInit s₀)
    (h : Reachable s₀ s) : PoolInv s := by
  induction h with
  | refl => exact inv_init h₀
  | step _ hstep ih => exact inv_step ih hstep

lemma configuredInit_threadPool_init (gen : Nat) :
    ConfiguredInit (ThreadPool.init gen) :=
  ⟨rfl, rfl, rfl, rfl, rfl, rfl, rfl, rfl, rfl, rfl⟩

/-- C7: storing a value of type `T` in an `Any` and casting back to `T`
returns the stored value, and casting the same container to any
different type `U` fails with the `TypeMismatch` error
(`throw "type is unmatch!"`, modelled as a recoverable `Except.error` —
never undefined behaviour). -/
theorem any_cast_round_trip (t u : Ty) (v : t.denote) :
    Any.cast t (Any.stored t v) = Except.ok v ∧
    (t ≠ u → Any.cast u (Any.stored t v) = Except.error "type is unmatch!") := by
  constructor
  · simp [Any.cast]
  · intro hne
    simp [Any.cast, hne]

/-- Witness for C7 at `T = int`, `U = const char*`, `v = 7`. -/
theorem any_cast_round_trip_witness :
    Any.cast Ty.tInt (Any.stored Ty.tInt (7 : Int)) = Except.ok (7 : Int) ∧
    Any.cast Ty.tStr (Any.stored Ty.tInt (7 : Int)) =
      Except.error "type is unmatch!" :=
  ⟨(any_cast_round_trip Ty.tInt Ty.tStr (7 : Int)).1,
   (any_cast_round_trip Ty.tInt Ty.tStr (7 : Int)).2 (by decide)⟩

/-- C9: the `Semaphore` constructor ignores its `limit` parameter — the
member initialiser is `resLimit_(0)`, not `resLimit_(limit)` — so at the
failing input `limit = 5` the initial count is `0` rather than `5`; the
pool's own use passes `0`, where the slip is invisible, and
`wait`/`post` do behave as decrement-when-positive (blocking at `0`) and
increment. -/
theorem sem_init_ignores_limit :
    semInit 5 = 0 ∧ (5 : Int) ≠ 0 ∧ semInit 0 = 0 ∧
    semWait 3 = some 2 ∧ semWait 0 = none ∧ semPost 0 = 1 := by
  decide

/-- C2 counterexample: `Result::get()` on the concrete handle
constructed invalid (`isValid_ = false`, semaphore at `0`) returns
immediately, but the value returned is the `Any` built from the literal
`""` — a container with a stored value — not a `TypeErasedValue` holding
no stored value as the claim states. -/
theorem result_get_invalid_not_empty :
    ResultSt.get ⟨Any.empty, 0, false⟩ =
      some (Any.stored Ty.tStr "", ⟨Any.empty, 0, false⟩) ∧
    Any.stored Ty.tStr "" ≠ Any.empty := by
  exact ⟨rfl, fun h => Any.noConfusion h⟩

/-- C2 amended: for every handle whose validity flag is false, `get()`
returns immediately without waiting on the semaphore (the result does
not depend on the semaphore count, so it returns even at count `0`), and
the returned value is the `Any` constructed from the C-string `""` — a
stored empty string rather than a container holding no value. -/
theorem result_get_invalid_immediate (r : ResultSt) (h : r.isValid_ = false) :
    r.get = some (Any.stored Ty.tStr "", r) := by
  simp [ResultSt.get, h]

/-- Witness for C2 at a concrete invalid handle with semaphore count 0. -/
theorem result_get_invalid_immediate_witness :
    ResultSt.get ⟨Any.empty, 0, false⟩ =
      some (Any.stored Ty.tStr "", ⟨Any.empty, 0, false⟩) :=
  result_get_invalid_immediate ⟨Any.empty, 0, false⟩ rfl

/-- C8 counterexample: `Task::exec()` on the concrete task whose
`result_` back-pointer is null does not invoke `run()` at all (the
ran-flag component is `false`), refuting the claim that the task still
runs with only its output dropped. -/
theorem task_exec_unbound_cex :
    (TaskSt.exec ⟨none, Any.stored Ty.tInt 7⟩).1 = false := rfl

/-- C8 amended: if a `ResultHandle` is bound to the task, `exec` invokes
`run` and delivers its output to the handle via `setVal`; if none is
bound, `exec` does nothing at all — `run()` is never invoked, so the
task does not run and no output exists to be discarded. -/
theorem task_exec_dispatch (t : TaskSt) :
    (∀ r, t.result_ = some r → t.exec = (true, some (r.setVal t.runRet))) ∧
    (t.result_ = none → t.exec = (false, none)) := by
  constructor
  · intro r hr
    simp [TaskSt.exec, hr]
  · intro hr
    simp [TaskSt.exec, hr]

/-- Witness for C8 at a bound task and at an unbound task. -/
theorem task_exec_dispatch_witness :
    TaskSt.exec ⟨some ⟨Any.empty, 0, true⟩, Any.stored Ty.tInt 7⟩ =
      (true, some (ResultSt.setVal ⟨Any.empty, 0, true⟩ (Any.stored Ty.tInt 7))) ∧
    TaskSt.exec ⟨none, Any.empty⟩ = (false, none) :=
  ⟨(task_exec_dispatch ⟨some ⟨Any.empty, 0, true⟩, Any.stored Ty.tInt 7⟩).1 _ rfl,
   (task_exec_dispatch ⟨none, Any.empty⟩).2 rfl⟩

/-- C10: on a pool that has not been started,
`setThreadSizeThreshHold t` writes the worker-count threshold iff the
mode is cached at the time of the call: in cached mode exactly the
threshold field becomes `t`, in fixed mode (the default) the whole state
is unchanged, and consequently setting the threshold before switching
the mode to cached leaves the threshold the cached pool then uses at its
old value. -/
theorem set_thread_threshhold_gated (s : PoolState) (t : Nat)
    (h : s.isPoolRunning_ = false) :
    (s.poolMode_ = PoolMode.MODE_CACHED →
      setThreadSizeThreshHold s t = { s with threadSizeThreshHold_ := t }) ∧
    (s.poolMode_ = PoolMode.MODE_FIXED → setThreadSizeThreshHold s t = s) ∧
    (s.poolMode_ = PoolMode.MODE_FIXED →
      (setMode (setThreadSizeThreshHold s t)
          PoolMode.MODE_CACHED).threadSizeThreshHold_ =
        s.threadSizeThreshHold_) := by
  refine ⟨fun hm => ?_, fun hm => ?_, fun hm => ?_⟩
  · simp [setThreadSizeThreshHold, h, hm]
  · simp [setThreadSizeThreshHold, h, hm]
  · simp [setThreadSizeThreshHold, setMode, h, hm]

/-- Witness for C10: on the freshly constructed (fixed-mode, stopped)
pool the setter is a no-op and setting before switching to cached has no
effect, while after switching to cached the setter does write. -/
theorem set_thread_threshhold_gated_witness :
    setThreadSizeThreshHold (ThreadPool.init 0) 7 = ThreadPool.init 0 ∧
    (setMode (setThreadSizeThreshHold (ThreadPool.init 0) 7)
        PoolMode.MODE_CACHED).threadSizeThreshHold_ =
      (ThreadPool.init 0).threadSizeThreshHold_ ∧
    setThreadSizeThreshHold (setMode (ThreadPool.init 0) PoolMode.MODE_CACHED) 7 =
      { setMode (ThreadPool.init 0) PoolMode.MODE_CACHED with
          threadSizeThreshHold_ := 7 } :=
  ⟨(set_thread_threshhold_gated (ThreadPool.init 0) 7 rfl).2.1 rfl,
   (set_thread_threshhold_gated (ThreadPool.init 0) 7 rfl).2.2 rfl,
   (set_thread_threshhold_gated (setMode (ThreadPool.init 0) PoolMode.MODE_CACHED)
      7 rfl).1 rfl⟩

lemma submitTask_accept_fields (s : PoolState) (sp : Nat)
    (h : s.taskQue_.length < s.taskQueMaxThreshHold_) :
    (submitTask s sp).1.taskQue_ = s.taskQue_ ++ [sp] ∧
    (submitTask s sp).1.taskSize_ = s.taskSize_ + 1 ∧
    (submitTask s sp).1.taskQueMaxThreshHold_ = s.taskQueMaxThreshHold_ ∧
    (submitTask s sp).2 = ⟨sp, true⟩ := by
  simp only [submitTask, if_pos h]
  split <;> simp

/-- C1: when `submitTask` resolves its 1-second admission wait with the
queue still at the configured maximum (the window elapsed with the queue
full), it returns a `Result` constructed invalid and bound to the task,
and the pool state — in particular the task queue and the pending
count — is unchanged, the task never being enqueued; when the wait
resolves with space available, the task is pushed at the back of the
queue, the pending count is incremented, and a valid `Result` bound to
the task is returned. -/
theorem submitTask_admission (s : PoolState) (sp : Nat) :
    (s.taskQueMaxThreshHold_ ≤ s.taskQue_.length →
      submitTask s sp = (s, ⟨sp, false⟩)) ∧
    (s.taskQue_.length < s.taskQueMaxThreshHold_ →
      (submitTask s sp).1.taskQue_ = s.taskQue_ ++ [sp] ∧
      (submitTask s sp).1.taskSize_ = s.taskSize_ + 1 ∧
      (submitTask s sp).2 = ⟨sp, true⟩) := by
  constructor
  · intro h
    simp [submitTask, Nat.not_lt.mpr h]
  · intro h
    obtain ⟨h1, h2, _, h4⟩ := submitTask_accept_fields s sp h
    exact ⟨h1, h2, h4⟩

/-- Concrete pool whose queue sits at its configured maximum (bound 1,
one task queued): used to exercise the rejection branch. -/
def sFullDemo : PoolState :=
  ⟨∅, 0, 0, 0, 100, [3], 1, 1, PoolMode.MODE_FIXED, true, 0, ∅, 0, [3], []⟩

/-- Witness for C1: on a full queue `submitTask` rejects and changes
nothing; on the freshly constructed pool it enqueues, counts, and
returns a valid bound `Result`. -/
theorem submitTask_admission_witness :
    submitTask sFullDemo 7 = (sFullDemo, ⟨7, false⟩) ∧
    ((submitTask (ThreadPool.init 0) 7).1.taskQue_ =
        (ThreadPool.init 0).taskQue_ ++ [7] ∧
      (submitTask (ThreadPool.init 0) 7).1.taskSize_ =
        (ThreadPool.init 0).taskSize_ + 1 ∧
      (submitTask (ThreadPool.init 0) 7).2 = ⟨7, true⟩) :=
  ⟨(submitTask_admission sFullDemo 7).1 (by decide),
   (submitTask_admission (ThreadPool.init 0) 7).2 (by decide)⟩

/-- C3: at every state reachable from a configured initial pool the
pending-count `taskSize_` equals the task-queue length and the queue
length never exceeds the configured maximum `taskQueMaxThreshHold_`;
and each of the two queue-touching operations — `submitTask` and the
worker dequeue — preserves both properties from any state enjoying
them. -/
theorem pool_queue_invariant :
    (∀ s₀ s : PoolState, ConfiguredInit s₀ → Reachable s₀ s →
      s.taskSize_ = s.taskQue_.length ∧
      s.taskQue_.length ≤ s.taskQueMaxThreshHold_) ∧
    (∀ (s : PoolState) (sp : Nat),
      s.taskSize_ = s.taskQue_.length →
      s.taskQue_.length ≤ s.taskQueMaxThreshHold_ →
      (submitTask s sp).1.taskSize_ = (submitTask s sp).1.taskQue_.length ∧
      (submitTask s sp).1.taskQue_.length ≤
        (submitTask s sp).1.taskQueMaxThreshHold_) ∧
    (∀ (s : PoolState) (w : Nat), s.taskQue_ ≠ [] →
      s.taskSize_ = s.taskQue_.length →
      s.taskQue_.length ≤ s.taskQueMaxThreshHold_ →
      (dequeueStep s w).taskSize_ = (dequeueStep s w).taskQue_.length ∧
      (dequeueStep s w).taskQue_.length ≤
        (dequeueStep s w).taskQueMaxThreshHold_) := by
  refine ⟨?_, ?_, ?_⟩
  · intro s₀ s h₀ h
    have hI := inv_reachable h₀ h
    exact ⟨hI.sizeEq, hI.qBound⟩
  · intro s sp h1 h2
    by_cases hq : s.taskQue_.length < s.taskQueMaxThreshHold_
    · obtain ⟨e1, e2, e3, _⟩ := submitTask_accept_fields s sp hq
      rw [e1, e2, e3]
      simp [h1]
      omega
    · simp only [submitTask, if_neg hq]
      exact ⟨h1, h2⟩
  · intro s w hne h1 h2
    have hlen : 0 < s.taskQue_.length := List.length_pos.mpr hne
    constructor
    · simp [dequeueStep, List.length_tail, h1]
    · simp only [dequeueStep, List.length_tail]
      omega

/-- Witness for C3: the invariant at the freshly constructed pool, the
`submitTask` preservation at that pool, and the dequeue preservation at
a pool with a non-empty queue. -/
theorem pool_queue_invariant_witness :
    ((ThreadPool.init 0).taskSize_ = (ThreadPool.init 0).taskQue_.length ∧
      (ThreadPool.init 0).taskQue_.length ≤
        (ThreadPool.init 0).taskQueMaxThreshHold_) ∧
    ((submitTask (ThreadPool.init 0) 7).1.taskSize_ =
        (submitTask (ThreadPool.init 0) 7).1.taskQue_.length ∧
      (submitTask (ThreadPool.init 0) 7).1.taskQue_.length ≤
        (submitTask (ThreadPool.init 0) 7).1.taskQueMaxThreshHold_) ∧
    ((dequeueStep sFullDemo 0).taskSize_ =
        (dequeueStep sFullDemo 0).taskQue_.length ∧
      (dequeueStep sFullDemo 0).taskQue_.length ≤
        (dequeueStep sFullDemo 0).taskQueMaxThreshHold_) :=
  ⟨pool_queue_invariant.1 (ThreadPool.init 0) (ThreadPool.init 0)
      (configuredInit_threadPool_init 0) Reachable.refl,
   pool_queue_invariant.2.1 (ThreadPool.init 0) 7 rfl (by decide),
   pool_queue_invariant.2.2 sFullDemo 0 (by decide) rfl (by decide)⟩

/-- C4 counterexample: `start 1` on a configured pool followed by the
destructor's flag flip and the worker's shutdown exit is a concrete
reachable trace on which the shutdown exit breaks "registry size equals
`curThreadSize_`": before the exit both are `1`; the exit erases the
worker from `threads_` without decrementing the counter, leaving
registry size `0` against counter `1`. -/
theorem worker_registry_shutdown_cex :
    Reachable (ThreadPool.init 0)
      (shutdownExitStep (stopPool (startPool (ThreadPool.init 0) 1)) 0) ∧
    (stopPool (startPool (ThreadPool.init 0) 1)).threads_.card =
      (stopPool (startPool (ThreadPool.init 0) 1)).curThreadSize_ ∧
    (shutdownExitStep (stopPool (startPool (ThreadPool.init 0) 1)) 0).threads_.card ≠
      (shutdownExitStep (stopPool (startPool (ThreadPool.init 0) 1)) 0).curThreadSize_ := by
  refine ⟨?_, by decide, by decide⟩
  exact Reachable.step
    (Reachable.step (Reachable.step Reachable.refl (Step.start _ 1 rfl rfl rfl))
      (Step.stop _))
    (Step.exitShutdown _ 0 rfl (by decide) (by decide))

/-- C4 amended: at every reachable state, registry size plus the number
of workers that left through the shutdown paths equals `curThreadSize_`
(so the registry size equals the counter at every state reached without
a shutdown exit — `start`, the cached spawn in `submitTask`, and the
idle-timeout reap all preserve the equality — while each shutdown exit
leaves the counter one higher than the registry), and
`idleThreadSize_ ≤ curThreadSize_` holds at every reachable state. -/
theorem worker_registry_counters (s₀ s : PoolState)
    (h₀ : ConfiguredInit s₀) (h : Reachable s₀ s) :
    s.threads_.card + s.exited = s.curThreadSize_ ∧
    s.idleThreadSize_ ≤ s.curThreadSize_ :=
  have hI := inv_reachable h₀ h
  ⟨hI.regCur, by have := hI.idleBusy; omega⟩

/-- Witness for C4 (amended) on the started-then-stopped one-worker
trace, before any shutdown exit. -/
theorem worker_registry_counters_witness :
    (stopPool (startPool (ThreadPool.init 0) 1)).threads_.card +
        (stopPool (startPool (ThreadPool.init 0) 1)).exited =
      (stopPool (startPool (ThreadPool.init 0) 1)).curThreadSize_ ∧
    (stopPool (startPool (ThreadPool.init 0) 1)).idleThreadSize_ ≤
      (stopPool (startPool (ThreadPool.init 0) 1)).curThreadSize_ :=
  worker_registry_counters (ThreadPool.init 0) _
    (configuredInit_threadPool_init 0)
    (Reachable.step (Reachable.step Reachable.refl (Step.start _ 1 rfl rfl rfl))
      (Step.stop _))

/-- C5: inside `submitTask`, after a successful enqueue, exactly one new
worker is created under the fresh id `generateId_`, registered, started
and both counters incremented, if and only if the pool is in cached
mode, the (just incremented) pending count exceeds the idle count, and
`curThreadSize_` is below `threadSizeThreshHold_`; and, consequently, on
every trace from a configured pool whose recorded initial worker count
stays within the threshold, `curThreadSize_` never exceeds the
threshold. -/
theorem cached_growth_guarded :
    (∀ (s : PoolState) (sp : Nat), s.taskQue_.length < s.taskQueMaxThreshHold_ →
      (((submitTask s sp).1.threads_ = insert s.generateId_ s.threads_ ∧
        (submitTask s sp).1.curThreadSize_ = s.curThreadSize_ + 1 ∧
        (submitTask s sp).1.idleThreadSize_ = s.idleThreadSize_ + 1) ↔
      (s.poolMode_ = PoolMode.MODE_CACHED ∧
        s.idleThreadSize_ < s.taskSize_ + 1 ∧
        s.curThreadSize_ < s.threadSizeThreshHold_))) ∧
    (∀ s₀ s : PoolState, ConfiguredInit s₀ → Reachable s₀ s →
      s.initThreadSize_ ≤ s.threadSizeThreshHold_ →
      s.curThreadSize_ ≤ s.threadSizeThreshHold_) := by
  constructor
  · intro s sp h
    simp only [submitTask, if_pos h]
    by_cases hc : s.idleThreadSize_ < s.taskSize_ + 1 ∧
        s.poolMode_ = PoolMode.MODE_CACHED ∧
        s.curThreadSize_ < s.threadSizeThreshHold_
    · rw [if_pos hc]
      obtain ⟨hc1, hc2, hc3⟩ := hc
      exact iff_of_true ⟨rfl, rfl, rfl⟩ ⟨hc2, hc1, hc3⟩
    · rw [if_neg hc]
      constructor
      · intro hl
        have : s.curThreadSize_ = s.curThreadSize_ + 1 := hl.2.1
        omega
      · intro hr
        exact absurd ⟨hr.2.1, hr.1, hr.2.2⟩ hc
  · intro s₀ s h₀ h hinit
    have hI := inv_reachable h₀ h
    exact le_trans hI.curBound (max_le hinit le_rfl)

/-- Concrete cached-mode running pool (threshold 4, no workers yet,
empty queue, next worker id 5) used to exercise the spawn branch. -/
def sCachedDemo : PoolState :=
  ⟨∅, 1, 0, 0, 4, [], 0, 8, PoolMode.MODE_CACHED, true, 5, ∅, 0, [], []⟩

/-- Witness for C5: submitting to `sCachedDemo` spawns worker 5 and
bumps both counters, and the reachable-state bound holds at the
configured pool. -/
theorem cached_growth_guarded_witness :
    (submitTask sCachedDemo 9).1.threads_ = insert 5 (∅ : Finset Nat) ∧
    (submitTask sCachedDemo 9).1.curThreadSize_ = 1 ∧
    (submitTask sCachedDemo 9).1.idleThreadSize_ = 1 ∧
    (ThreadPool.init 0).curThreadSize_ ≤ (ThreadPool.init 0).threadSizeThreshHold_ := by
  have h := (cached_growth_guarded.1 sCachedDemo 9 (by decide)).mpr
    ⟨rfl, by decide, by decide⟩
  exact ⟨h.1, h.2.1, h.2.2,
    cached_growth_guarded.2 (ThreadPool.init 0) (ThreadPool.init 0)
      (configuredInit_threadPool_init 0) Reachable.refl (by decide)⟩

/-- C6: strict FIFO — at every reachable state, the sequence of tasks
workers have removed from the shared queue, followed by the tasks still
queued, is exactly the sequence of successfully enqueued tasks in
submission order; so tasks are dequeued in exactly the order the
`submitTask` calls enqueued them and, with a single worker serving the
queue, execute in submission order. -/
theorem fifo_dequeue_order (s₀ s : PoolState) (h₀ : ConfiguredInit s₀)
    (h : Reachable s₀ s) : s.deqHist ++ s.taskQue_ = s.enqHist :=
  (inv_reachable h₀ h).fifo

/-- Witness for C6 on a concrete trace: start one worker, submit tasks 4
then 5, let the worker dequeue once; the dequeue history `[4]` plus the
remaining queue `[5]` is the submission order `[4, 5]`. -/
theorem fifo_dequeue_order_witness :
    (dequeueStep (submitTask (submitTask (startPool (ThreadPool.init 0) 1) 4).1 5).1
        0).deqHist ++
      (dequeueStep (submitTask (submitTask (startPool (ThreadPool.init 0) 1) 4).1 5).1
        0).taskQue_ =
    (dequeueStep (submitTask (submitTask (startPool (ThreadPool.init 0) 1) 4).1 5).1
        0).enqHist :=
  fifo_dequeue_order (ThreadPool.init 0) _ (configuredInit_threadPool_init 0)
    (Reachable.step
      (Reachable.step
        (Reachable.step (Reachable.step Reachable.refl (Step.start _ 1 rfl rfl rfl))
          (Step.submit _ 4))
        (Step.submit _ 5))
      (Step.dequeue _ 0 (by decide) (by decide) (by decide)))
